import Mathlib

/-!
Shallow embedding of `src/cpuemu.cpp`, a cycle-counting emulator of a
6502-style processor, together with proofs of the testable properties
stated in its specification.

Machine integers are modelled as `Nat` with explicit wraparound:
the `uint32` cycle counter wraps modulo `2 ^ 32` (`sub32`), the 16-bit
`Word` registers wrap modulo `65536` (`wrap16`), and `Byte` arithmetic
wraps modulo `256`.  The 64 KiB byte array `MEM::Data` is modelled as a
total function `Nat → Nat`; the C++ array stores bytes, so theorems that
quantify over memory contents carry byte-valuedness hypotheses where the
value of a read matters.
-/

/-- Wrapping subtraction on the `uint32` cycle counter: `cycles -= k`. -/
def sub32 (c k : Nat) : Nat := (c + (2 ^ 32 - k)) % 2 ^ 32

/-- Truncation to a 16-bit `Word`. -/
def wrap16 (x : Nat) : Nat := x % 65536

/-- MEM::MAX_MEM = 1024 * 64. -/
def MAX_MEM : Nat := 1024 * 64

/-- The memory image: `Byte Data[MAX_MEM]` modelled as a total function. -/
structure MEM where
  Data : Nat → Nat

/-- MEM::Init — sets every byte of the array (indices below `MAX_MEM`) to 0. -/
def MEM.Init (m : MEM) : MEM :=
  ⟨fun a => if a < MAX_MEM then 0 else m.Data a⟩

/-- A store through `Byte& operator[]`: the assigned value is truncated to a
byte by the `Byte` element type. -/
def MEM.write (m : MEM) (address v : Nat) : MEM :=
  ⟨fun x => if x = address then v % 256 else m.Data x⟩

/-- MEM::WriteWord — little-endian word store: `Data[address] = val & 0xFF;
Data[address+1] = val >> 8; cycles -= 2`.  The index `address + 1` is plain
`uint32` arithmetic, with no 16-bit wrap.  Returns the new memory and the
new cycle counter. -/
def MEM.WriteWord (m : MEM) (cycles address val : Nat) : MEM × Nat :=
  (((m.write address (val % 256)).write (address + 1) (val / 256)), sub32 cycles 2)

/-- Bounds-checked variant of MEM::WriteWord for the safety analysis: both
byte stores must land inside the `MAX_MEM`-byte array, otherwise `none`. -/
def MEM.WriteWordChecked (m : MEM) (cycles address val : Nat) : Option (MEM × Nat) :=
  if address < MAX_MEM ∧ address + 1 < MAX_MEM then
    some (m.WriteWord cycles address val)
  else
    none

/-- The processor registers and the seven one-bit status flags of `struct CPU`.
The bit-field flags are modelled as `Bool` (false = 0, true = 1). -/
structure CPU where
  PC : Nat
  SP : Nat
  A : Nat
  X : Nat
  Y : Nat
  C : Bool
  Z : Bool
  I : Bool
  D : Bool
  B : Bool
  V : Bool
  N : Bool

/-- Opcode constant INS_LDA_IMM = 0xA9. -/
def CPU.INS_LDA_IMM : Nat := 0xA9

/-- Opcode constant INS_LDA_ZP = 0xA5. -/
def CPU.INS_LDA_ZP : Nat := 0xA5

/-- Opcode constant INS_LDA_ZPX = 0xB5. -/
def CPU.INS_LDA_ZPX : Nat := 0xB5

/-- Opcode constant INS_JSR = 0x20. -/
def CPU.INS_JSR : Nat := 0x20

/-- CPU::Reset — PC := 0xFFFC, SP := 0x0100, all registers and flags 0, and
the memory image re-initialised.  The cycle counter is untouched (Reset takes
no cycle argument in the source). -/
def CPU.Reset (_cpu : CPU) (memory : MEM) : CPU × MEM :=
  ({ PC := 0xFFFC, SP := 0x0100, A := 0, X := 0, Y := 0,
     C := false, Z := false, I := false, D := false, B := false,
     V := false, N := false },
   memory.Init)

/-- CPU::FetchByte — reads `memory[PC]`, increments PC (16-bit wrap),
decrements the cycle counter by 1.  Returns (data, new cpu, new cycles). -/
def CPU.FetchByte (cpu : CPU) (cycles : Nat) (memory : MEM) : Nat × CPU × Nat :=
  (memory.Data cpu.PC,
   { cpu with PC := wrap16 (cpu.PC + 1) },
   sub32 cycles 1)

/-- CPU::FetchWord — reads two bytes at PC and PC+1, little endian
(`Data |= memory[PC] << 8` with the result stored in a 16-bit `Word`),
advances PC by 2 (16-bit wrap), decrements the cycle counter by 2. -/
def CPU.FetchWord (cpu : CPU) (cycles : Nat) (memory : MEM) : Nat × CPU × Nat :=
  (wrap16 (memory.Data cpu.PC ||| (memory.Data (wrap16 (cpu.PC + 1)) <<< 8)),
   { cpu with PC := wrap16 (wrap16 (cpu.PC + 1) + 1) },
   sub32 cycles 2)

/-- CPU::ReadByte — reads an arbitrary (byte-sized) address, decrements the
cycle counter by 1. -/
def CPU.ReadByte (cycles address : Nat) (memory : MEM) : Nat × Nat :=
  (memory.Data address, sub32 cycles 1)

/-- CPU::LDA_set_status — `Z = (A == 0); N = (A & 0b10000000) > 0`. -/
def CPU.LDA_set_status (cpu : CPU) : CPU :=
  { cpu with Z := decide (cpu.A = 0), N := decide (0 < cpu.A &&& 128) }

/-- The whole machine state threaded through CPU::Exec: the register file,
the memory image and the `uint32` cycle counter. -/
structure State where
  cpu : CPU
  mem : MEM
  cycles : Nat

/-- One iteration of the `while (cycles > 0)` loop body of CPU::Exec:
fetch the opcode, then the `switch` on it.  The default case only prints a
diagnostic, so in the model it changes nothing beyond the opcode fetch. -/
def CPU.ExecStep (s : State) : State :=
  let f := s.cpu.FetchByte s.cycles s.mem
  let instruction := f.1
  let cpu1 := f.2.1
  let cycles1 := f.2.2
  if instruction = CPU.INS_LDA_IMM then
    let g := cpu1.FetchByte cycles1 s.mem
    let cpu2 := { g.2.1 with A := g.1 }
    ⟨cpu2.LDA_set_status, s.mem, g.2.2⟩
  else if instruction = CPU.INS_LDA_ZP then
    let g := cpu1.FetchByte cycles1 s.mem
    let r := CPU.ReadByte g.2.2 g.1 s.mem
    let cpu2 := { g.2.1 with A := r.1 }
    ⟨cpu2.LDA_set_status, s.mem, r.2⟩
  else if instruction = CPU.INS_LDA_ZPX then
    let g := cpu1.FetchByte cycles1 s.mem
    let zeropageaddr := (g.1 + g.2.1.X) % 256
    let cycles2 := sub32 g.2.2 1
    let r := CPU.ReadByte cycles2 zeropageaddr s.mem
    let cpu2 := { g.2.1 with A := r.1 }
    ⟨cpu2.LDA_set_status, s.mem, r.2⟩
  else if instruction = CPU.INS_JSR then
    let g := cpu1.FetchWord cycles1 s.mem
    let w := s.mem.WriteWord g.2.2 g.2.1.SP (wrap16 (g.2.1.PC + 65536 - 1))
    let cpu2 := { g.2.1 with SP := wrap16 (g.2.1.SP + 1), PC := g.1 }
    ⟨cpu2, w.1, sub32 w.2 1⟩
  else
    ⟨cpu1, s.mem, cycles1⟩

/-- CPU::Exec — the `while (cycles > 0)` loop, indexed by an iteration bound
`fuel` (the C++ loop has no such bound; every theorem below either shows the
loop has stopped, making the result independent of any larger bound, or
speaks about finitely many iterations). -/
def CPU.Exec (fuel : Nat) (s : State) : State :=
  match fuel with
  | 0 => s
  | fuel + 1 => if 0 < s.cycles then CPU.Exec fuel (CPU.ExecStep s) else s

/-- Cycle cost of one full loop iteration, by opcode (including the opcode
fetch); every unrecognized opcode costs just the 1-cycle fetch. -/
def opcodeCycles (op : Nat) : Nat :=
  if op = CPU.INS_LDA_IMM then 2
  else if op = CPU.INS_LDA_ZP then 3
  else if op = CPU.INS_LDA_ZPX then 4
  else if op = CPU.INS_JSR then 6
  else 1

/-- Once the budget is 0 the loop never runs again. -/
theorem Exec_cycles_zero (s : State) (h : s.cycles = 0) : ∀ n, CPU.Exec n s = s := by
  intro n
  cases n with
  | zero => rfl
  | succ n => simp [CPU.Exec, h]

/-- While the budget is positive, the loop runs the body once and recurses:
the budget is only ever examined between instructions. -/
theorem Exec_succ (s : State) (n : Nat) (h : 0 < s.cycles) :
    CPU.Exec (n + 1) s = CPU.Exec n (CPU.ExecStep s) := by
  simp [CPU.Exec, h]

/-- The memory image constructed in main(): Reset-initialised, then the
hardcoded pokes of the JSR / LDA-immediate demo program. -/
def mainMem : MEM :=
  (((((MEM.mk fun _ => 0).Init.write 0xFFFC CPU.INS_JSR).write 0xFFFD 0x42).write
      0xFFFE 0x42).write 0x4242 CPU.INS_LDA_IMM).write 0x4243 0x84

/-- The machine state right before `cpu.Exec(8, mem)` in main(). -/
def mainState : State :=
  { cpu := (CPU.Reset ⟨0, 0, 0, 0, 0, false, false, false, false, false, false, false⟩
       (MEM.mk fun _ => 0)).1,
    mem := mainMem,
    cycles := 8 }

/-- C1: starting from the Reset state with the JSR demo program poked into
memory (0x20 at 0xFFFC, operand bytes 0x42 0x42, then 0xA9 0x84 at 0x4242),
running the execution loop with a cycle budget of 8 stops after two
instructions with ProgramCounter 0x4244, Accumulator 0x84, Zero flag false,
Negative flag true and exactly 0 cycles remaining (6 consumed by JSR plus 2
by LDA Immediate); any iteration bound of at least 2 gives the same final
state, so the loop has terminated. -/
theorem c1_end_to_end (n : Nat) :
    (CPU.Exec (n + 2) mainState).cpu.PC = 0x4244 ∧
    (CPU.Exec (n + 2) mainState).cpu.A = 0x84 ∧
    (CPU.Exec (n + 2) mainState).cpu.Z = false ∧
    (CPU.Exec (n + 2) mainState).cpu.N = true ∧
    (CPU.Exec (n + 2) mainState).cycles = 0 := by
  have h : CPU.Exec (n + 2) mainState = CPU.ExecStep (CPU.ExecStep mainState) := by
    rw [show n + 2 = (n + 1) + 1 from rfl,
        Exec_succ mainState (n + 1) (by decide),
        Exec_succ (CPU.ExecStep mainState) n (by decide),
        Exec_cycles_zero (CPU.ExecStep (CPU.ExecStep mainState)) (by rfl) n]
  rw [h]
  exact ⟨rfl, rfl, rfl, rfl, rfl⟩

/-- For byte-sized operands, the bitwise-or recombination in FetchWord is
plain positional arithmetic: `lo ||| (hi <<< 8) = hi * 256 + lo`. -/
theorem lor_shiftLeft_eight (lo hi : Nat) (h : lo < 256) :
    lo ||| (hi <<< 8) = hi * 256 + lo := by
  apply Nat.eq_of_testBit_eq
  intro i
  rw [Nat.testBit_or, Nat.testBit_shiftLeft]
  have h8 : lo < 2 ^ 8 := by norm_num at h ⊢; exact h
  rw [show hi * 256 = 2 ^ 8 * hi by ring]
  rw [Nat.testBit_mul_pow_two_add hi h8 i]
  by_cases hc : i < 8
  · have : ¬ (8 ≤ i) := Nat.not_le.mpr hc
    simp [hc, this]
  · have hle : 8 ≤ i := Nat.le_of_not_lt hc
    have hlo0 : lo.testBit i = false :=
      Nat.testBit_lt_two_pow (lt_of_lt_of_le h8 (Nat.pow_le_pow_right (by norm_num) hle))
    simp [hc, hle, hlo0]

/-- C2: for every starting state whose next opcode is 0x20 (JSR) with operand
bytes `lo`, `hi` forming the little-endian word `T = lo + 256 * hi`, one loop
iteration sets ProgramCounter to `T`, writes the 16-bit value
`(original ProgramCounter + 2) − 1` little-endian at the address held in
StackPointer, and then increments StackPointer by exactly 1 (not 2).  Here
the original ProgramCounter is the value the register holds when the JSR
case executes, i.e. `s.cpu.PC + 1` after the opcode fetch, so the pushed
word is `(((s.cpu.PC + 1) + 2) − 1) mod 2 ^ 16` — the address of the
instruction's own last byte.  The high byte goes to `StackPointer + 1` in
plain (un-wrapped) address arithmetic, exactly as `Data[address + 1]` in
the source. -/
theorem c2_jsr (s : State) (lo hi : Nat)
    (hop : s.mem.Data s.cpu.PC = 0x20)
    (hlo : s.mem.Data ((s.cpu.PC + 1) % 65536) = lo) (hlo8 : lo < 256)
    (hhi : s.mem.Data ((s.cpu.PC + 2) % 65536) = hi) (hhi8 : hi < 256) :
    (CPU.ExecStep s).cpu.PC = lo + 256 * hi ∧
    (CPU.ExecStep s).mem.Data s.cpu.SP = ((((s.cpu.PC + 1) + 2) + 65536 - 1) % 65536) % 256 ∧
    (CPU.ExecStep s).mem.Data (s.cpu.SP + 1) = ((((s.cpu.PC + 1) + 2) + 65536 - 1) % 65536) / 256 ∧
    (CPU.ExecStep s).cpu.SP = (s.cpu.SP + 1) % 65536 := by
  have hsp : ¬ (s.cpu.SP = s.cpu.SP + 1) := by omega
  simp only [CPU.ExecStep, CPU.FetchByte, CPU.FetchWord, CPU.ReadByte, MEM.WriteWord,
    MEM.write, CPU.LDA_set_status, CPU.INS_LDA_IMM, CPU.INS_LDA_ZP, CPU.INS_LDA_ZPX,
    CPU.INS_JSR, hop, wrap16, Nat.reduceEqDiff, reduceIte, if_true, hsp]
  have haddr : ((s.cpu.PC + 1) % 65536 + 1) % 65536 = (s.cpu.PC + 2) % 65536 := by omega
  rw [haddr, hlo, hhi]
  refine ⟨?_, ?_, ?_, ?_⟩
  · rw [lor_shiftLeft_eight lo hi hlo8]
    have : hi * 256 + lo < 65536 := by omega
    rw [Nat.mod_eq_of_lt this]
    omega
  · omega
  · omega
  · trivial

/-- Witness for c2_jsr: the JSR at 0xFFFC in the main() demo program jumps
to 0x4242, pushes 0xFFFE little-endian at 0x0100/0x0101, and bumps the
stack pointer from 0x0100 to 0x0101. -/
theorem c2_jsr_witness :
    (CPU.ExecStep mainState).cpu.PC = 0x4242 ∧
    (CPU.ExecStep mainState).mem.Data 0x0100 = 0xFE ∧
    (CPU.ExecStep mainState).mem.Data 0x0101 = 0xFF ∧
    (CPU.ExecStep mainState).cpu.SP = 0x0101 :=
  c2_jsr mainState 0x42 0x42 (by rfl) (by rfl) (by decide) (by rfl) (by decide)

/-- The modulus of the cycle counter written as a numeral. -/
theorem sub32_eq (c k : Nat) : sub32 c k = (c + (4294967296 - k)) % 4294967296 := by
  norm_num [sub32]

/-- One loop iteration always decrements the cycle counter by exactly the
cost of the decoded instruction (in wrapping 32-bit arithmetic), whatever
the starting state: the budget is never examined inside the iteration. -/
theorem ExecStep_cycles (s : State) :
    (CPU.ExecStep s).cycles = sub32 s.cycles (opcodeCycles (s.mem.Data s.cpu.PC)) := by
  simp only [CPU.ExecStep, CPU.FetchByte, CPU.FetchWord, CPU.ReadByte, MEM.WriteWord,
    CPU.LDA_set_status, opcodeCycles]
  split_ifs <;> (dsimp only; try (simp only [sub32_eq]; omega))

/-- Every instruction costs between 1 and 6 cycles. -/
theorem opcodeCycles_bounds (op : Nat) : 1 ≤ opcodeCycles op ∧ opcodeCycles op ≤ 6 := by
  unfold opcodeCycles
  split_ifs <;> norm_num

/-- C5: with enough budget for any single instruction (at least 6 cycles, a
representable `uint32` value), one full execution of LDA Immediate (0xA9)
decrements the cycle budget by exactly 2, LDA Zero Page (0xA5) by exactly 3,
LDA Zero Page,X (0xB5) by exactly 4, and JSR (0x20) by exactly 6, counting
the opcode fetch; the loop examines the budget only between instructions
(Exec_succ / ExecStep_cycles), never within one. -/
theorem c5_cycle_costs (s : State) (hc : s.cycles < 2 ^ 32) (hb : 6 ≤ s.cycles) :
    (s.mem.Data s.cpu.PC = 0xA9 → (CPU.ExecStep s).cycles = s.cycles - 2) ∧
    (s.mem.Data s.cpu.PC = 0xA5 → (CPU.ExecStep s).cycles = s.cycles - 3) ∧
    (s.mem.Data s.cpu.PC = 0xB5 → (CPU.ExecStep s).cycles = s.cycles - 4) ∧
    (s.mem.Data s.cpu.PC = 0x20 → (CPU.ExecStep s).cycles = s.cycles - 6) := by
  have h := ExecStep_cycles s
  rw [sub32_eq] at h
  have hc' : s.cycles < 4294967296 := by norm_num at hc; exact hc
  refine ⟨fun hx => ?_, fun hx => ?_, fun hx => ?_, fun hx => ?_⟩ <;>
    (rw [hx] at h;
     norm_num [opcodeCycles, CPU.INS_LDA_IMM, CPU.INS_LDA_ZP, CPU.INS_LDA_ZPX,
       CPU.INS_JSR] at h;
     omega)

/-- Witness for c5_cycle_costs: the JSR of the main() demo program takes the
8-cycle budget down to exactly 2. -/
theorem c5_cycle_costs_witness : (CPU.ExecStep mainState).cycles = 2 :=
  (c5_cycle_costs mainState (by decide) (by decide)).2.2.2 (by rfl)

/-- A Reset-shaped register file with the all-0xA9 memory image and a cycle
budget of 1: the first LDA Immediate costs 2 cycles, one more than the
budget, so the `uint32` counter wraps. -/
def c3State : State :=
  { cpu := (CPU.Reset ⟨0, 0, 0, 0, 0, false, false, false, false, false, false, false⟩
       (MEM.mk fun _ => 0)).1,
    mem := MEM.mk fun _ => 0xA9,
    cycles := 1 }

/-- C3 counterexample: with a budget of 1 cycle and memory full of 0xA9, the
first instruction (cost 2) drives the unsigned counter past zero, leaving
2^32 − 1 cycles, and the loop does not stop after that instruction: the
second and third iterations still advance the program counter, so Exec
overruns the budget by more than one instruction's cost. -/
theorem c3_counterexample :
    (CPU.Exec 1 c3State).cycles = 2 ^ 32 - 1 ∧
    (CPU.Exec 2 c3State).cpu.PC ≠ (CPU.Exec 1 c3State).cpu.PC ∧
    (CPU.Exec 3 c3State).cpu.PC ≠ (CPU.Exec 2 c3State).cpu.PC := by
  refine ⟨by decide, by decide, by decide⟩

/-- C3 amended: the loop checks the budget only between instructions, and an
instruction always runs to completion once fetched.  When the instruction's
cost is at most the remaining budget the counter decreases by exactly that
cost, and when it lands exactly on 0 the loop stops for every remaining
iteration bound.  But when the cost exceeds the remaining budget the
`uint32` counter wraps to `cycles + 2^32 − cost` instead of stopping, so the
loop continues (c3_counterexample); termination for every budget and memory,
and the bound of at most one instruction's overrun, do not hold. -/
theorem c3_amended (s : State) (n : Nat)
    (hc : s.cycles < 2 ^ 32) (hpos : 0 < s.cycles) :
    CPU.Exec (n + 1) s = CPU.Exec n (CPU.ExecStep s) ∧
    (opcodeCycles (s.mem.Data s.cpu.PC) ≤ s.cycles →
      (CPU.ExecStep s).cycles = s.cycles - opcodeCycles (s.mem.Data s.cpu.PC)) ∧
    (opcodeCycles (s.mem.Data s.cpu.PC) = s.cycles →
      ∀ m, CPU.Exec m (CPU.ExecStep s) = CPU.ExecStep s) ∧
    (s.cycles < opcodeCycles (s.mem.Data s.cpu.PC) →
      (CPU.ExecStep s).cycles = s.cycles + 2 ^ 32 - opcodeCycles (s.mem.Data s.cpu.PC)) := by
  have h := ExecStep_cycles s
  rw [sub32_eq] at h
  have hc' : s.cycles < 4294967296 := by norm_num at hc; exact hc
  have hb := opcodeCycles_bounds (s.mem.Data s.cpu.PC)
  refine ⟨Exec_succ s n hpos, fun hle => ?_, fun heq => ?_, fun hlt => ?_⟩
  · omega
  · have : (CPU.ExecStep s).cycles = 0 := by omega
    exact fun m => Exec_cycles_zero (CPU.ExecStep s) this m
  · have h32 : (2 : Nat) ^ 32 = 4294967296 := by norm_num
    rw [h32]
    omega

/-- Witness for c3_amended at the wrapping state c3State: the cost-2 LDA
exceeds the 1-cycle budget and the counter wraps to 1 + 2^32 − 2. -/
theorem c3_amended_witness :
    CPU.Exec 1 c3State = CPU.Exec 0 (CPU.ExecStep c3State) ∧
    (CPU.ExecStep c3State).cycles = 1 + 2 ^ 32 - 2 := by
  have h := c3_amended c3State 0 (by decide) (by decide)
  exact ⟨h.1, h.2.2.2 (by decide)⟩

/-- C4: for every opcode byte not in {0xA9, 0xA5, 0xB5, 0x20}, one loop
iteration leaves the Accumulator, IndexX, IndexY, StackPointer, all seven
status flags and every byte of the memory image unchanged, advances the
ProgramCounter by exactly the single opcode fetch, consumes exactly the one
fetch cycle, and — whenever any budget remains past that fetch — leaves the
counter positive, so the `while (cycles > 0)` loop continues to the next
fetch rather than stopping (the `default:` case only prints a diagnostic
and breaks out of the switch, not out of the loop). -/
theorem c4_unknown_opcode (s : State)
    (h1 : s.mem.Data s.cpu.PC ≠ 0xA9) (h2 : s.mem.Data s.cpu.PC ≠ 0xA5)
    (h3 : s.mem.Data s.cpu.PC ≠ 0xB5) (h4 : s.mem.Data s.cpu.PC ≠ 0x20) :
    (CPU.ExecStep s).cpu.A = s.cpu.A ∧
    (CPU.ExecStep s).cpu.X = s.cpu.X ∧
    (CPU.ExecStep s).cpu.Y = s.cpu.Y ∧
    (CPU.ExecStep s).cpu.SP = s.cpu.SP ∧
    (CPU.ExecStep s).cpu.C = s.cpu.C ∧
    (CPU.ExecStep s).cpu.Z = s.cpu.Z ∧
    (CPU.ExecStep s).cpu.I = s.cpu.I ∧
    (CPU.ExecStep s).cpu.D = s.cpu.D ∧
    (CPU.ExecStep s).cpu.B = s.cpu.B ∧
    (CPU.ExecStep s).cpu.V = s.cpu.V ∧
    (CPU.ExecStep s).cpu.N = s.cpu.N ∧
    (∀ a, (CPU.ExecStep s).mem.Data a = s.mem.Data a) ∧
    (CPU.ExecStep s).cpu.PC = (s.cpu.PC + 1) % 65536 ∧
    (CPU.ExecStep s).cycles = (s.cycles + 2 ^ 32 - 1) % 2 ^ 32 ∧
    (1 < s.cycles → s.cycles < 2 ^ 32 → 0 < (CPU.ExecStep s).cycles) := by
  have hstep : CPU.ExecStep s =
      ⟨{ s.cpu with PC := wrap16 (s.cpu.PC + 1) }, s.mem, sub32 s.cycles 1⟩ := by
    simp only [CPU.ExecStep, CPU.FetchByte, CPU.INS_LDA_IMM, CPU.INS_LDA_ZP,
      CPU.INS_LDA_ZPX, CPU.INS_JSR, h1, h2, h3, h4, if_false]
  rw [hstep]
  dsimp only
  have h32 : (2 : Nat) ^ 32 = 4294967296 := by norm_num
  refine ⟨rfl, rfl, rfl, rfl, rfl, rfl, rfl, rfl, rfl, rfl, rfl, fun a => rfl, rfl, ?_, ?_⟩
  · rw [sub32_eq, h32]
    omega
  · intro hgt hlt
    rw [h32] at hlt
    rw [sub32_eq]
    omega

/-- A Reset-shaped register file facing an all-zero memory image (opcode
0x00 is not implemented) with a budget of 5 cycles. -/
def c4State : State :=
  { cpu := (CPU.Reset ⟨0, 0, 0, 0, 0, false, false, false, false, false, false, false⟩
       (MEM.mk fun _ => 0)).1,
    mem := (MEM.mk fun _ => 0).Init,
    cycles := 5 }

/-- Witness for c4_unknown_opcode: the unimplemented opcode 0x00 at 0xFFFC
leaves the accumulator and memory alone, moves PC to 0xFFFD, costs one cycle
(5 → 4) and keeps the loop running. -/
theorem c4_unknown_opcode_witness :
    (CPU.ExecStep c4State).cpu.A = 0 ∧
    (CPU.ExecStep c4State).mem.Data 0x4242 = 0 ∧
    (CPU.ExecStep c4State).cpu.PC = 0xFFFD ∧
    (CPU.ExecStep c4State).cycles = 4 ∧
    0 < (CPU.ExecStep c4State).cycles := by
  have h := c4_unknown_opcode c4State (by decide) (by decide) (by decide) (by decide)
  exact ⟨h.1, h.2.2.2.2.2.2.2.2.2.2.2.1 0x4242, h.2.2.2.2.2.2.2.2.2.2.2.2.1,
    h.2.2.2.2.2.2.2.2.2.2.2.2.2.1, h.2.2.2.2.2.2.2.2.2.2.2.2.2.2 (by decide) (by decide)⟩

/-- C6: whichever of the three LDA addressing modes (0xA9 immediate, 0xA5
zero page, 0xB5 zero page indexed by X) loads the byte value v into the
Accumulator, afterwards the Zero flag equals (v == 0), the Negative flag
equals (v & 0x80 != 0), and the other five flags (Carry, InterruptDisable,
DecimalMode, Break, Overflow) are not written by the load. -/
theorem c6_lda_flags (s : State) (v : Nat) (hv : v < 256) :
    ((s.mem.Data s.cpu.PC = 0xA9 ∧ s.mem.Data ((s.cpu.PC + 1) % 65536) = v) →
      ((CPU.ExecStep s).cpu.A = v ∧
       (CPU.ExecStep s).cpu.Z = decide (v = 0) ∧
       (CPU.ExecStep s).cpu.N = decide (v &&& 128 ≠ 0) ∧
       (CPU.ExecStep s).cpu.C = s.cpu.C ∧
       (CPU.ExecStep s).cpu.I = s.cpu.I ∧
       (CPU.ExecStep s).cpu.D = s.cpu.D ∧
       (CPU.ExecStep s).cpu.B = s.cpu.B ∧
       (CPU.ExecStep s).cpu.V = s.cpu.V)) ∧
    ((s.mem.Data s.cpu.PC = 0xA5 ∧
      s.mem.Data (s.mem.Data ((s.cpu.PC + 1) % 65536)) = v) →
      ((CPU.ExecStep s).cpu.A = v ∧
       (CPU.ExecStep s).cpu.Z = decide (v = 0) ∧
       (CPU.ExecStep s).cpu.N = decide (v &&& 128 ≠ 0) ∧
       (CPU.ExecStep s).cpu.C = s.cpu.C ∧
       (CPU.ExecStep s).cpu.I = s.cpu.I ∧
       (CPU.ExecStep s).cpu.D = s.cpu.D ∧
       (CPU.ExecStep s).cpu.B = s.cpu.B ∧
       (CPU.ExecStep s).cpu.V = s.cpu.V)) ∧
    ((s.mem.Data s.cpu.PC = 0xB5 ∧
      s.mem.Data ((s.mem.Data ((s.cpu.PC + 1) % 65536) + s.cpu.X) % 256) = v) →
      ((CPU.ExecStep s).cpu.A = v ∧
       (CPU.ExecStep s).cpu.Z = decide (v = 0) ∧
       (CPU.ExecStep s).cpu.N = decide (v &&& 128 ≠ 0) ∧
       (CPU.ExecStep s).cpu.C = s.cpu.C ∧
       (CPU.ExecStep s).cpu.I = s.cpu.I ∧
       (CPU.ExecStep s).cpu.D = s.cpu.D ∧
       (CPU.ExecStep s).cpu.B = s.cpu.B ∧
       (CPU.ExecStep s).cpu.V = s.cpu.V)) := by
  refine ⟨fun hcase => ?_, fun hcase => ?_, fun hcase => ?_⟩ <;>
    obtain ⟨hop, hval⟩ := hcase <;>
    (simp only [CPU.ExecStep, CPU.FetchByte, CPU.FetchWord, CPU.ReadByte, MEM.WriteWord,
      MEM.write, CPU.LDA_set_status, CPU.INS_LDA_IMM, CPU.INS_LDA_ZP, CPU.INS_LDA_ZPX,
      CPU.INS_JSR, hop, wrap16, Nat.reduceEqDiff, reduceIte];
     rw [hval]) <;>
    simp [Nat.pos_iff_ne_zero]

/-- A state whose next instruction is LDA Immediate of the byte 0x84. -/
def c6State : State :=
  { cpu := ⟨0, 0x100, 0, 0, 0, false, false, false, false, false, false, false⟩,
    mem := MEM.mk fun a => if a = 0 then 0xA9 else if a = 1 then 0x84 else 0,
    cycles := 8 }

/-- Witness for c6_lda_flags: loading 0x84 immediately gives Accumulator
0x84, Zero flag false and Negative flag true. -/
theorem c6_lda_flags_witness :
    (CPU.ExecStep c6State).cpu.A = 0x84 ∧
    (CPU.ExecStep c6State).cpu.Z = false ∧
    (CPU.ExecStep c6State).cpu.N = true := by
  have h := (c6_lda_flags c6State 0x84 (by decide)).1 ⟨by rfl, by rfl⟩
  exact ⟨h.1, h.2.1, h.2.2.1⟩

/-- C7: for every operand byte b and IndexX value x (bytes, as in the C++
register), LDA Zero Page,X (0xB5) loads the byte at effective address
(b + x) mod 256: the sum wraps inside the zero page (`zeropageaddr += X` is
8-bit arithmetic) and never carries into a higher page. -/
theorem c7_zpx_wraparound (s : State) (b x : Nat)
    (hop : s.mem.Data s.cpu.PC = 0xB5)
    (hb : s.mem.Data ((s.cpu.PC + 1) % 65536) = b) (hb8 : b < 256)
    (hx : s.cpu.X = x) (hx8 : x < 256) :
    (CPU.ExecStep s).cpu.A = s.mem.Data ((b + x) % 256) := by
  simp only [CPU.ExecStep, CPU.FetchByte, CPU.ReadByte, CPU.LDA_set_status,
    CPU.INS_LDA_IMM, CPU.INS_LDA_ZP, CPU.INS_LDA_ZPX, CPU.INS_JSR, hop, wrap16,
    Nat.reduceEqDiff, reduceIte]
  rw [hb, hx]

/-- A state about to run LDA Zero Page,X with operand 0xF0 and X = 0x20;
the marker byte 0x77 sits at the wrapped address 0x10 (0xF0 + 0x20 mod 256),
while address 0x110 holds a different byte. -/
def c7State : State :=
  { cpu := ⟨0, 0x100, 0, 0x20, 0, false, false, false, false, false, false, false⟩,
    mem := MEM.mk fun a =>
      if a = 0 then 0xB5 else if a = 1 then 0xF0 else if a = 0x10 then 0x77 else 0,
    cycles := 8 }

/-- Witness for c7_zpx_wraparound: base 0xF0 plus X = 0x20 reads address
0x10 (which holds 0x77), not 0x110 (which holds 0). -/
theorem c7_zpx_wraparound_witness : (CPU.ExecStep c7State).cpu.A = 0x77 := by
  have h := c7_zpx_wraparound c7State 0xF0 0x20 (by rfl) (by rfl) (by decide)
    (by rfl) (by decide)
  exact h

/-- C8: for every prior register file and memory contents, Reset yields
ProgramCounter 0xFFFC, StackPointer 0x0100, Accumulator = IndexX = IndexY
= 0, all seven status flags cleared, and all 65536 memory bytes zero.  The
model's Reset does not touch the cycle counter at all (the source function
takes no cycle argument), so it consumes no cycles. -/
theorem c8_reset (cpu : CPU) (m : MEM) :
    (CPU.Reset cpu m).1.PC = 0xFFFC ∧
    (CPU.Reset cpu m).1.SP = 0x0100 ∧
    (CPU.Reset cpu m).1.A = 0 ∧
    (CPU.Reset cpu m).1.X = 0 ∧
    (CPU.Reset cpu m).1.Y = 0 ∧
    (CPU.Reset cpu m).1.C = false ∧
    (CPU.Reset cpu m).1.Z = false ∧
    (CPU.Reset cpu m).1.I = false ∧
    (CPU.Reset cpu m).1.D = false ∧
    (CPU.Reset cpu m).1.B = false ∧
    (CPU.Reset cpu m).1.V = false ∧
    (CPU.Reset cpu m).1.N = false ∧
    (∀ a, a < 65536 → (CPU.Reset cpu m).2.Data a = 0) := by
  refine ⟨rfl, rfl, rfl, rfl, rfl, rfl, rfl, rfl, rfl, rfl, rfl, rfl, fun a ha => ?_⟩
  have hm : a < MAX_MEM := by
    have : MAX_MEM = 65536 := by norm_num [MAX_MEM]
    omega
  simp [CPU.Reset, MEM.Init, hm]

/-- A register file with nonzero registers and all flags set. -/
def someCPU : CPU := ⟨0x1234, 0x55, 7, 8, 9, true, true, true, true, true, true, true⟩

/-- A memory image holding 0xFF everywhere. -/
def someMEM : MEM := MEM.mk fun _ => 0xFF

/-- Witness for c8_reset: resetting the dirty someCPU / someMEM pair gives
PC 0xFFFC, a cleared Zero flag and a zeroed memory byte. -/
theorem c8_reset_witness :
    (CPU.Reset someCPU someMEM).1.PC = 0xFFFC ∧
    (CPU.Reset someCPU someMEM).1.Z = false ∧
    (CPU.Reset someCPU someMEM).2.Data 0x1234 = 0 :=
  ⟨(c8_reset someCPU someMEM).1, (c8_reset someCPU someMEM).2.2.2.2.2.2.1,
   (c8_reset someCPU someMEM).2.2.2.2.2.2.2.2.2.2.2.2 0x1234 (by decide)⟩

/-- C9: ProgramCounter arithmetic wraps modulo 2^16: FetchByte at PC 0xFFFF
reads address 0xFFFF and leaves PC at 0x0000; FetchWord at PC 0xFFFE leaves
PC at 0x0000; and both primitives always leave PC below 65536, so the
instruction-stream reads they perform stay inside addresses 0..65535. -/
theorem c9_pc_wrap (cpu : CPU) (c : Nat) (m : MEM) :
    (cpu.PC = 0xFFFF →
      (cpu.FetchByte c m).1 = m.Data 0xFFFF ∧ (cpu.FetchByte c m).2.1.PC = 0) ∧
    (cpu.PC = 0xFFFE → (cpu.FetchWord c m).2.1.PC = 0) ∧
    (cpu.FetchByte c m).2.1.PC < 65536 ∧
    (cpu.FetchWord c m).2.1.PC < 65536 := by
  refine ⟨fun h => ?_, fun h => ?_, ?_, ?_⟩
  · rw [show (0xFFFF : Nat) = cpu.PC from h.symm]
    exact ⟨rfl, by simp [CPU.FetchByte, wrap16, h]⟩
  · simp [CPU.FetchWord, wrap16, h]
  · exact Nat.mod_lt _ (by norm_num)
  · exact Nat.mod_lt _ (by norm_num)

/-- Witness for c9_pc_wrap, applied at two boundary register files: a fetch
at 0xFFFF wraps PC to 0, and a word fetch at 0xFFFE wraps PC to 0. -/
theorem c9_pc_wrap_witness :
    ((⟨0xFFFF, 0, 0, 0, 0, false, false, false, false, false, false, false⟩ :
        CPU).FetchByte 10 someMEM).2.1.PC = 0 ∧
    ((⟨0xFFFE, 0, 0, 0, 0, false, false, false, false, false, false, false⟩ :
        CPU).FetchWord 10 someMEM).2.1.PC = 0 :=
  ⟨((c9_pc_wrap ⟨0xFFFF, 0, 0, 0, 0, false, false, false, false, false, false, false⟩
      10 someMEM).1 rfl).2,
   (c9_pc_wrap ⟨0xFFFE, 0, 0, 0, 0, false, false, false, false, false, false, false⟩
      10 someMEM).2.1 rfl⟩

/-- C10: WriteWord at address 0xFFFF puts its high byte at index 0x10000 =
MAX_MEM, one past the end of the 65536-byte array (the model's total-function
memory makes the overflowing store visible at that index); accordingly the
bounds-checked embedding rejects address 0xFFFF, and accepts exactly the
addresses with address + 1 within bounds, i.e. address ≤ 0xFFFE. -/
theorem c10_writeword_bounds (m : MEM) (c v a : Nat) :
    MEM.WriteWordChecked m c 0xFFFF v = none ∧
    (a ≤ 0xFFFE → (MEM.WriteWordChecked m c a v).isSome = true) ∧
    (m.WriteWord c 0xFFFF v).1.Data 0x10000 = v / 256 % 256 := by
  refine ⟨?_, fun ha => ?_, ?_⟩
  · norm_num [MEM.WriteWordChecked, MAX_MEM]
  · have h1 : a < MAX_MEM := by norm_num [MAX_MEM]; omega
    have h2 : a + 1 < MAX_MEM := by norm_num [MAX_MEM]; omega
    simp [MEM.WriteWordChecked, h1, h2]
  · norm_num [MEM.WriteWord, MEM.write]

/-- Witness for c10_writeword_bounds: writing 0xABCD at 0xFFFF is rejected
by the checked writer, writing at 0x0100 is accepted, and the unchecked
writer deposits the high byte 0xAB at the out-of-range index 0x10000. -/
theorem c10_writeword_bounds_witness :
    MEM.WriteWordChecked someMEM 10 0xFFFF 0xABCD = none ∧
    (MEM.WriteWordChecked someMEM 10 0x0100 0xABCD).isSome = true ∧
    (someMEM.WriteWord 10 0xFFFF 0xABCD).1.Data 0x10000 = 0xAB :=
  ⟨(c10_writeword_bounds someMEM 10 0xABCD 0x0100).1,
   (c10_writeword_bounds someMEM 10 0xABCD 0x0100).2.1 (by decide),
   (c10_writeword_bounds someMEM 10 0xABCD 0x0100).2.2⟩
